import Mathlib

/-!
Verification development for the rocket-execution core of OpenFrontIO
(src/core/execution/RocketExecution.ts), shallowly embedded in Lean.

Pure data is embedded directly from the source.  Collaborators whose code is
not part of the staged files (Game/GameMap accessors, Player.buildUnit and
canBuild, Unit.launch and isInCooldown, ParabolaPathFinder, PseudoRandom) are
modelled from the specification, each marked `Modelled from the spec:` in its
doc comment.  Machine numbers are embedded as Nat/Int.  Randomness is threaded
as an explicit oracle state, so theorems quantify over every possible random
outcome.
-/

namespace OpenFront

/-- A tile reference: an opaque integer handle for one grid cell
(src/core/game/GameMap.ts `TileRef`). -/
abbrev TileRef := Nat

/-- A player identity; players are looked up by id. -/
abbrev PlayerId := Nat

/-- The unit-type enumeration, restricted to the variants RocketExecution.ts
mentions plus the structure types the build menu lists. -/
inductive UnitType where
  | ClusterRocket
  | TacticalRocket
  | MIRVWarhead
  | MIRV
  | AtomBomb
  | HydrogenBomb
  | MissileShip
  | Warship
  | TradeShip
  | Port
  | City
  | Factory
  | DefensePost
  | SAMLauncher
  | MissileSilo
  deriving DecidableEq, Repr

/-- Modelled from the spec: `isStructureType` of src/core/game/Game.ts holds of
the static buildings (the build-menu structures). Only `redrawBuildings` reads
it, where it selects which units get a visual refresh. -/
def isStructureType : UnitType → Bool
  | UnitType.Port => true
  | UnitType.City => true
  | UnitType.Factory => true
  | UnitType.DefensePost => true
  | UnitType.SAMLauncher => true
  | UnitType.MissileSilo => true
  | _ => false

/-- The four munition unit types that `applyBlast` (RocketExecution.ts:298-303)
and `generateClusterBlasts` (ts:436-441) exclude, written there as a four-way
type test. -/
def isMunitionType : UnitType → Bool
  | UnitType.ClusterRocket => true
  | UnitType.TacticalRocket => true
  | UnitType.MIRVWarhead => true
  | UnitType.MIRV => true
  | _ => false

/-- The source's `type RocketUnitType = UnitType.ClusterRocket |
UnitType.TacticalRocket` (RocketExecution.ts:16). -/
inductive RocketUnitType where
  | ClusterRocket
  | TacticalRocket
  deriving DecidableEq, Repr

/-- The injection of the rocket subtype back into the unit-type enumeration. -/
def RocketUnitType.toUnitType : RocketUnitType → UnitType
  | RocketUnitType.ClusterRocket => UnitType.ClusterRocket
  | RocketUnitType.TacticalRocket => UnitType.TacticalRocket

/-- One sampled point of a rocket's precomputed flight path
(`TrajectoryTile` of src/core/game/Game.ts). -/
structure TrajectoryTile where
  tile : TileRef
  targetable : Bool
  deriving DecidableEq, Repr

/-- One game unit (src/core/game/Game.ts `Unit`), with the attributes
RocketExecution.ts reads or writes. -/
structure Unit where
  id : Nat
  utype : UnitType
  ownerId : PlayerId
  tile : TileRef
  active : Bool := true
  missileTimerQueue : List Nat := []
  targetTile : Option TileRef := none
  targetable : Bool := false
  trajectory : List TrajectoryTile := []
  trajectoryIndex : Nat := 0
  payloadTiles : List TileRef := []
  reachedTarget : Bool := false
  touched : Bool := false
  deriving DecidableEq, Repr

/-- A player's mutable resources.  Troops and gold are embedded as Int so that
the clamping in `applyBlast` and the refund in `tick` are meaningful. -/
structure PlayerState where
  troops : Int := 0
  gold : Int := 0
  deriving DecidableEq, Repr

/-- The tile grid (src/core/game/GameMap.ts).  Modelled from the spec: tiles
are opaque integer handles convertible to and from (x, y); `land` is the
terrain predicate `isLand`. -/
structure GameMap where
  width : Nat
  height : Nat
  land : TileRef → Bool

/-- Modelled from the spec: coordinate conversion `ref(x, y)` packing a valid
coordinate pair into a tile handle. -/
def GameMap.ref (m : GameMap) (x y : Nat) : TileRef := y * m.width + x

/-- Modelled from the spec: the x coordinate of a tile handle. -/
def GameMap.xOf (m : GameMap) (t : TileRef) : Nat := t % m.width

/-- Modelled from the spec: the y coordinate of a tile handle. -/
def GameMap.yOf (m : GameMap) (t : TileRef) : Nat := t / m.width

/-- Modelled from the spec: `isValidCoord` — out-of-bounds coordinates never
produce a tile reference. -/
def GameMap.isValidCoord (m : GameMap) (x y : Int) : Bool :=
  decide (0 ≤ x) && decide (x < (m.width : Int)) &&
  decide (0 ≤ y) && decide (y < (m.height : Int))

/-- Modelled from the spec: `euclideanDistSquared` between two tiles. -/
def GameMap.distSq (m : GameMap) (a b : TileRef) : Nat :=
  (Int.natAbs ((m.xOf a : Int) - (m.xOf b : Int))) ^ 2 +
  (Int.natAbs ((m.yOf a : Int) - (m.yOf b : Int))) ^ 2

/-- Modelled from the spec: the four grid neighbors of a tile, used by the
breadth-first search. -/
def GameMap.neighborsOf (m : GameMap) (t : TileRef) : List TileRef :=
  let x := m.xOf t
  let y := m.yOf t
  (if x + 1 < m.width then [m.ref (x + 1) y] else []) ++
  (if 0 < x then [m.ref (x - 1) y] else []) ++
  (if y + 1 < m.height then [m.ref x (y + 1)] else []) ++
  (if 0 < y then [m.ref x (y - 1)] else [])

/-- Fuel-bounded worker for the breadth-first search. -/
def GameMap.bfsAux (m : GameMap) (pred : TileRef → Bool) :
    Nat → List TileRef → List TileRef → List TileRef
  | 0, _, acc => acc
  | _ + 1, [], acc => acc
  | fuel + 1, t :: rest, acc =>
    if acc.contains t then m.bfsAux pred fuel rest acc
    else if pred t then m.bfsAux pred fuel (rest ++ m.neighborsOf t) (acc ++ [t])
    else m.bfsAux pred fuel rest acc

/-- Modelled from the spec: `bfs(center, predicate)` collects the connected set
of tiles around the center satisfying the predicate. -/
def GameMap.bfs (m : GameMap) (center : TileRef) (pred : TileRef → Bool) :
    List TileRef :=
  m.bfsAux pred (5 * m.width * m.height + 5) [center] []

/-- Modelled from the spec: the random state RocketExecution.ts draws from.
PseudoRandom's source is not among the staged files, so its raw draws are an
unconstrained oracle stream (`ints`), which makes every theorem below hold for
every possible sequence of pseudo-random outputs.  `offs` is the oracle for the
floating-point polar-offset computation of `detonate` (two `nextFloat` draws
combined through `Math.cos` / `Math.sin` / `Math.round`), whose real-arithmetic
result is not otherwise expressible over integers. -/
structure Rand where
  ints : Nat → Int
  offs : Nat → Int × Int
  idx : Nat := 0

/-- Modelled from the spec: `PseudoRandom.nextInt(minInclusive, maxExclusive)`
returns a value in [min, max); a degenerate range must not crash, so it
returns min. One raw draw is consumed. -/
def Rand.nextIntO (r : Rand) (lo hi : Int) : Int × Rand :=
  (if lo < hi then lo + (r.ints r.idx).emod (hi - lo) else lo,
   { r with idx := r.idx + 1 })

/-- The rounded polar offset `(Math.round(cos(angle) * distance),
Math.round(sin(angle) * distance))` of `detonate` (RocketExecution.ts:239-242),
drawn from the offset oracle; the two `nextFloat` draws it consumes advance the
random state by two. -/
def Rand.nextPolarOffset (r : Rand) : (Int × Int) × Rand :=
  (r.offs r.idx, { r with idx := r.idx + 2 })

/-- Modelled from the spec: PseudoRandom — a reproducible pseudo-random source
seeded by one integer, with no hidden global state.  Its entire state is this
record; the spec fixes no particular recurrence, so a linear congruential step
realizes it. -/
structure PseudoRandom where
  state : Nat
  deriving DecidableEq, Repr

/-- Modelled from the spec: construction from an explicit numeric seed. -/
def mkPseudoRandom (seed : Nat) : PseudoRandom :=
  { state := seed % 2 ^ 32 }

/-- One raw draw: advance the congruential state and report it. -/
def PseudoRandom.next (p : PseudoRandom) : Nat × PseudoRandom :=
  let s := (1664525 * p.state + 1013904223) % 2 ^ 32
  (s, { state := s })

/-- Modelled from the spec: `nextInt(minInclusive, maxExclusive)`. -/
def PseudoRandom.nextInt (p : PseudoRandom) (lo hi : Int) : Int × PseudoRandom :=
  let d := p.next
  (if lo < hi then lo + (d.1 : Int) % (hi - lo) else lo, d.2)

/-- Modelled from the spec: `nextFloat(minInclusive, maxExclusive)`; the
fractional draw is embedded as a rational number. -/
def PseudoRandom.nextFloat (p : PseudoRandom) (lo hi : ℚ) : ℚ × PseudoRandom :=
  let d := p.next
  (lo + ((d.1 : ℚ) / 2 ^ 32) * (hi - lo), d.2)

/-- One call of a PseudoRandom driving sequence. -/
inductive RandCall where
  | int (lo hi : Int)
  | float (lo hi : ℚ)
  deriving DecidableEq, Repr

/-- One output of a PseudoRandom driving sequence. -/
inductive RandOut where
  | int (v : Int)
  | float (v : ℚ)
  deriving DecidableEq, Repr

/-- Drive a PseudoRandom instance through a call sequence and record every
output in order. -/
def runCalls (p : PseudoRandom) : List RandCall → List RandOut
  | [] => []
  | RandCall.int lo hi :: rest =>
    let d := p.nextInt lo hi
    RandOut.int d.1 :: runCalls d.2 rest
  | RandCall.float lo hi :: rest =>
    let d := p.nextFloat lo hi
    RandOut.float d.1 :: runCalls d.2 rest

/-- One record of the statistics sink (`stats().bombLaunch` /
`stats().bombLand`). -/
inductive StatEvent where
  | bombLaunch (attacker target : PlayerId) (kind : UnitType)
  | bombLand (attacker target : PlayerId) (kind : UnitType)
  deriving DecidableEq, Repr

/-- The per-rocket-type tuning record (RocketExecution.ts:18-25). -/
structure RocketConfig where
  speed : Nat
  blastRadius : Nat
  troopDamage : Int
  burstsMin : Nat
  burstsMax : Nat
  spread : Nat
  minClusterSpacing : Option Nat := none
  deriving DecidableEq, Repr

/-- `CLUSTER_BOMBLET_COUNT` (RocketExecution.ts:35). -/
def CLUSTER_BOMBLET_COUNT : Nat := 5

/-- The `rocketConfig` record literal (RocketExecution.ts:37-53). -/
def rocketConfig : RocketUnitType → RocketConfig
  | RocketUnitType.ClusterRocket =>
    { speed := 8, blastRadius := 1, troopDamage := 350,
      burstsMin := 3, burstsMax := 5, spread := 26, minClusterSpacing := some 10 }
  | RocketUnitType.TacticalRocket =>
    { speed := 12, blastRadius := 1, troopDamage := 450,
      burstsMin := 1, burstsMax := 1, spread := 0, minClusterSpacing := none }

/-- `RocketExecutionOptions` (RocketExecution.ts:27-33). -/
structure RocketOptions where
  skipSpawnChecks : Bool := false
  skipLaunchCooldown : Bool := false
  skipCost : Bool := false
  skipStats : Bool := false
  isClusterBomblet : Bool := false
  deriving DecidableEq, Repr

/-- The mutable state of one RocketExecution (RocketExecution.ts:55-69),
together with the path-finder progress the execution owns.  `rocket` and
`carrier` hold the referenced unit records; registry updates mirror them. -/
structure RocketExec where
  rocketType : RocketUnitType
  playerId : PlayerId
  dst : TileRef
  src : Option TileRef := none
  options : RocketOptions := {}
  active : Bool := true
  rocket : Option Unit := none
  carrier : Option Unit := none
  path : List TileRef := []
  pathIdx : Nat := 0
  deriving DecidableEq, Repr

/-- The world state the execution reads and writes, with the external
collaborators it consults embedded as explicit fields: `canBuildAt` is the
oracle for `Player.canBuild` (spawn tile or failure), `buildCost` the
configured build cost `Player.buildUnit` consumes, `pathOracle` the sample
list `ParabolaPathFinder` precomputes, `targetableRange` the configured
`defaultNukeTargetableRange`, and `missileShipCooldown` the configured carrier
cooldown duration — all modelled from the spec, since their sources are not
among the staged files. -/
structure GameState where
  map : GameMap
  ownerOf : TileRef → Option PlayerId
  players : PlayerId → PlayerState
  units : List Unit := []
  nextId : Nat := 0
  pendingExecs : List RocketExec := []
  stats : List StatEvent := []
  missileShipCooldown : Nat := 0
  targetableRange : Nat := 0
  buildCost : UnitType → Int := fun _ => 0
  canBuildAt : PlayerId → UnitType → TileRef → Option TileRef := fun _ _ _ => none
  pathOracle : TileRef → TileRef → Nat → List TileRef := fun _ _ _ => []

/-- Point update of one player's record. -/
def updateP (ps : PlayerId → PlayerState) (p : PlayerId)
    (f : PlayerState → PlayerState) : PlayerId → PlayerState :=
  fun q => if q = p then f (ps q) else ps q

/-- Apply `f` to every registry entry with the given id (the registry's view of
a mutation performed through an aliased unit object). -/
def updateUnit (st : GameState) (uid : Nat) (f : Unit → Unit) : GameState :=
  { st with units := st.units.map fun u => if u.id = uid then f u else u }

/-- `Unit.delete`: the unit leaves the registry. -/
def deleteUnit (st : GameState) (uid : Nat) : GameState :=
  { st with units := st.units.filter fun u => u.id ≠ uid }

/-- Modelled from the spec: `Unit.isInCooldown()` — a missile ship is in
cooldown while its missile timer queue is non-empty. -/
def Unit.isInCooldown (u : Unit) : Bool := !u.missileTimerQueue.isEmpty

/-- Modelled from the spec: `Unit.launch()` pushes the configured missile-ship
cooldown timer onto the unit's cooldown queue. -/
def launchUnit (cooldown : Nat) (u : Unit) : Unit :=
  { u with missileTimerQueue := u.missileTimerQueue ++ [cooldown] }

/-- The registry's view of a mutation the execution performs through its
aliased rocket object: both the execution's copy and the registry entry are
updated. -/
def mutateRocket (ex : RocketExec) (st : GameState) (f : Unit → Unit) :
    RocketExec × GameState :=
  match ex.rocket with
  | none => (ex, st)
  | some ru => ({ ex with rocket := some (f ru) }, updateUnit st ru.id f)

/-- The troop-damage step of `applyBlast` (RocketExecution.ts:287-295) for one
tile of the blast search: the tile's owning player, when there is one, loses
`min troopDamage troops` troops. -/
def blastTroopStep (ownerOf : TileRef → Option PlayerId) (troopDamage : Int)
    (ps : PlayerId → PlayerState) (t : TileRef) : PlayerId → PlayerState :=
  match ownerOf t with
  | none => ps
  | some p => updateP ps p fun pl => { pl with troops := pl.troops - min troopDamage pl.troops }

/-- `applyBlast` (RocketExecution.ts:281-310): damage the owner of every tile
within the blast radius reachable by the breadth-first search, then delete
every non-munition unit within the radius. -/
def applyBlast (st : GameState) (byPlayer : PlayerId) (center : TileRef)
    (radius : Nat) (troopDamage : Int) : GameState :=
  let radiusSquared := radius * radius
  let tiles := st.map.bfs center fun t => decide (st.map.distSq center t ≤ radiusSquared)
  let _ := byPlayer
  { st with
    players := tiles.foldl (blastTroopStep st.ownerOf troopDamage) st.players,
    units := st.units.filter fun u =>
      isMunitionType u.utype || !(decide (st.map.distSq center u.tile ≤ radiusSquared)) }

/-- The `for (const blast of blasts) applyBlast(...)` loop of `detonate`
(RocketExecution.ts:261-263). -/
def applyBlasts (st : GameState) (byPlayer : PlayerId) (centers : List TileRef)
    (radius : Nat) (troopDamage : Int) : GameState :=
  centers.foldl (fun s c => applyBlast s byPlayer c radius troopDamage) st

/-- `redrawBuildings` (RocketExecution.ts:312-325): refresh every structure
within the widened radius of some detonation center. -/
def redrawBuildings (st : GameState) (range : Nat) (centers : List TileRef) : GameState :=
  let rangeSquared := range * range
  { st with units := st.units.map fun u =>
      if isStructureType u.utype &&
         centers.any (fun c => decide (st.map.distSq c u.tile < rangeSquared)) then
        { u with touched := true }
      else u }

/-- Modelled from the spec: `Player.units(type)` — the player's units of the
given type, read from the registry. -/
def playerUnits (st : GameState) (pid : PlayerId) (ut : UnitType) : List Unit :=
  st.units.filter fun u => decide (u.ownerId = pid) && decide (u.utype = ut)

/-- `findCarrier` (RocketExecution.ts:551-561): the first of the player's
missile ships that is active and positioned exactly at the spawn tile. -/
def findCarrier (st : GameState) (pid : PlayerId) (spawn : TileRef) : Option Unit :=
  ((playerUnits st pid UnitType.MissileShip).filter fun ship =>
    ship.active && decide (ship.tile = spawn) && decide (ship.ownerId = pid)).head?

/-- `isTargetable` (RocketExecution.ts:175-187): a flight-path sample is
targetable when it is within the configured range of the destination, or the
launch tile is known and the sample is within that range of it. -/
def isTargetable (st : GameState) (src : Option TileRef)
    (targetTile rocketTile : TileRef) (targetRangeSquared : Nat) : Bool :=
  decide (st.map.distSq rocketTile targetTile < targetRangeSquared) ||
  (match src with
   | some s => decide (st.map.distSq s rocketTile < targetRangeSquared)
   | none => false)

/-- `getTrajectory` (RocketExecution.ts:160-173): annotate every precomputed
path sample with its targetability flag. -/
def getTrajectory (st : GameState) (src : Option TileRef) (target : TileRef)
    (allTiles : List TileRef) : List TrajectoryTile :=
  allTiles.map fun tile =>
    { tile := tile, targetable := isTargetable st src target tile (st.targetableRange ^ 2) }

/-- `updateRocketTargetable` (RocketExecution.ts:189-199). -/
def updateRocketTargetable (ex : RocketExec) (st : GameState) : RocketExec × GameState :=
  match ex.rocket with
  | none => (ex, st)
  | some ru =>
    match ru.targetTile with
    | none => (ex, st)
    | some tt =>
      let b := isTargetable st ex.src tt ru.tile (st.targetableRange ^ 2)
      mutateRocket ex st fun u => { u with targetable := b }

/-- The blast/seen accumulator shared by `detonate`'s `addBlast` closure and
`generateClusterBlasts`' `addIfValid` closure. -/
structure GenSt where
  blasts : List TileRef := []
  seen : List TileRef := []
  deriving DecidableEq, Repr

/-- `addBlast` of `detonate` (RocketExecution.ts:218-224): record a blast
center unless it was already seen. -/
def addBlast (g : GenSt) (tile : TileRef) : GenSt :=
  if g.seen.contains tile then g
  else { blasts := g.blasts ++ [tile], seen := g.seen ++ [tile] }

/-- `addIfValid` of `generateClusterBlasts` (RocketExecution.ts:401-420):
record a candidate unless it is missing, already seen, or (when spacing is
enforced) too close to a chosen blast. -/
def addIfValid (m : GameMap) (minSpacingSquared : Nat) (enforceSpacing : Bool)
    (t : Option TileRef) (g : GenSt) : GenSt × Bool :=
  match t with
  | none => (g, false)
  | some tile =>
    if g.seen.contains tile then (g, false)
    else if enforceSpacing &&
        g.blasts.any (fun e => decide (m.distSq e tile < minSpacingSquared)) then
      (g, false)
    else ({ blasts := g.blasts ++ [tile], seen := g.seen ++ [tile] }, true)

/-- `randomBurstCount` (RocketExecution.ts:327-333). -/
def randomBurstCount (config : RocketConfig) (r : Rand) : Nat × Rand :=
  if config.burstsMax ≤ config.burstsMin then (max config.burstsMin 1, r)
  else
    let d := r.nextIntO (config.burstsMin : Int) ((config.burstsMax : Int) + 1)
    (d.1.toNat, d.2)

/-- The bounded candidate loop of `randomClusterTarget`
(RocketExecution.ts:522-546), recursing on the remaining local attempts. -/
def rctGo (st : GameState) (dst : TileRef) (baseX baseY spread : Nat)
    (targetOwner : Option PlayerId) (preferLand : Bool) :
    Nat → Rand → Option TileRef × Rand
  | 0, r => (none, r)
  | fuel + 1, r =>
    let d1 := r.nextIntO ((baseX : Int) - spread) ((baseX : Int) + spread + 1)
    let d2 := d1.2.nextIntO ((baseY : Int) - spread) ((baseY : Int) + spread + 1)
    let x := d1.1
    let y := d2.1
    if !(st.map.isValidCoord x y) then
      rctGo st dst baseX baseY spread targetOwner preferLand fuel d2.2
    else
      let tile := st.map.ref x.toNat y.toNat
      if preferLand && !(st.map.land tile) then
        rctGo st dst baseX baseY spread targetOwner preferLand fuel d2.2
      else if decide (0 < spread) && decide (spread * spread < st.map.distSq tile dst) then
        rctGo st dst baseX baseY spread targetOwner preferLand fuel d2.2
      else if (match targetOwner with
               | some p => !(decide (st.ownerOf tile = some p))
               | none => false) then
        rctGo st dst baseX baseY spread targetOwner preferLand fuel d2.2
      else (some tile, d2.2)

/-- `randomClusterTarget` (RocketExecution.ts:504-549). -/
def randomClusterTarget (st : GameState) (dst : TileRef) (baseX baseY spread : Nat)
    (targetOwner : Option PlayerId) (preferLand : Bool) (r : Rand) :
    Option TileRef × Rand :=
  if spread = 0 then (some dst, r)
  else rctGo st dst baseX baseY spread targetOwner preferLand 80 r

/-- Stable descending insertion by key, realizing the
`(a, b) => dSq(b) - dSq(a)` comparator sort of RocketExecution.ts:453-457. -/
def insertDescBy (key : TileRef → Nat) (t : TileRef) : List TileRef → List TileRef
  | [] => [t]
  | h :: rest => if key t ≤ key h then h :: insertDescBy key t rest else t :: h :: rest

/-- Stable descending sort by key. -/
def sortDescBy (key : TileRef → Nat) (l : List TileRef) : List TileRef :=
  l.foldl (fun acc t => insertDescBy key t acc) []

/-- The owner-unit target collection of `generateClusterBlasts`
(RocketExecution.ts:424-457): the destination owner's active non-munition
units within the spread, sorted farthest-first from the destination. -/
def clusterOwnerTargets (st : GameState) (dst : TileRef) (spread : Nat)
    (p : PlayerId) : List TileRef :=
  let candidates := st.units.filter fun u =>
    u.active && decide (u.ownerId = p) && !(isMunitionType u.utype) &&
    !(decide (0 < spread) && decide (spread * spread < st.map.distSq u.tile dst))
  sortDescBy (fun t => st.map.distSq t dst) (candidates.map fun u => u.tile)

/-- The `for (const tile of ownerTargets)` loop of `generateClusterBlasts`
(RocketExecution.ts:459-464). -/
def ownerPhaseLoop (m : GameMap) (desired minSpSq : Nat) :
    List TileRef → GenSt → GenSt
  | [], g => g
  | t :: rest, g =>
    if desired ≤ g.blasts.length then g
    else ownerPhaseLoop m desired minSpSq rest (addIfValid m minSpSq true (some t) g).1

/-- The spacing-enforcing random attempt loop of `generateClusterBlasts`
(RocketExecution.ts:467-479), recursing on the remaining attempts; the attempt
counter is recovered as `maxAttempts - fuel`. -/
def attemptLoop (st : GameState) (dst : TileRef) (baseX baseY spread : Nat)
    (targetOwner : Option PlayerId) (preferLand : Bool)
    (desired minSpSq maxAttempts : Nat) : Nat → GenSt → Rand → GenSt × Rand
  | 0, g, r => (g, r)
  | fuel + 1, g, r =>
    if desired ≤ g.blasts.length then (g, r)
    else
      let attempts := maxAttempts - fuel
      let ignoreOwner := decide (maxAttempts / 2 < attempts)
      let c := randomClusterTarget st dst baseX baseY spread
        (if ignoreOwner then none else targetOwner) preferLand r
      attemptLoop st dst baseX baseY spread targetOwner preferLand desired minSpSq
        maxAttempts fuel (addIfValid st.map minSpSq true c.1 g).1 c.2

/-- The spacing-relaxed fallback loop of `generateClusterBlasts`
(RocketExecution.ts:481-495): the countdown value after the decrement is the
remaining fuel. -/
def fallbackLoop (st : GameState) (dst : TileRef) (baseX baseY spread : Nat)
    (targetOwner : Option PlayerId) (preferLand : Bool)
    (desired minSpSq maxAttempts : Nat) : Nat → GenSt → Rand → GenSt × Rand
  | 0, g, r => (g, r)
  | fuel + 1, g, r =>
    if desired ≤ g.blasts.length then (g, r)
    else
      let ignoreOwner := decide (fuel < maxAttempts / 2)
      let c := randomClusterTarget st dst baseX baseY spread
        (if ignoreOwner then none else targetOwner) preferLand r
      fallbackLoop st dst baseX baseY spread targetOwner preferLand desired minSpSq
        maxAttempts fuel (addIfValid st.map minSpSq false c.1 g).1 c.2

/-- `generateClusterBlasts` (RocketExecution.ts:380-502). -/
def generateClusterBlasts (st : GameState) (dst : TileRef) (config : RocketConfig)
    (desiredBlasts : Nat) (r : Rand) : List TileRef × Rand :=
  let baseX := st.map.xOf dst
  let baseY := st.map.yOf dst
  let preferLand := st.map.land dst
  let targetOwner := st.ownerOf dst
  let minSpacing := max 4 (config.minClusterSpacing.getD (max config.spread 1 / 3))
  let minSpacingSquared := minSpacing * minSpacing
  let maxAttempts := max 20 (desiredBlasts * 60)
  let g0 := (addIfValid st.map minSpacingSquared false (some dst) {}).1
  let g1 :=
    match targetOwner with
    | some p => ownerPhaseLoop st.map desiredBlasts minSpacingSquared
        (clusterOwnerTargets st dst config.spread p) g0
    | none => g0
  let a := attemptLoop st dst baseX baseY config.spread targetOwner preferLand
    desiredBlasts minSpacingSquared maxAttempts maxAttempts g1 r
  let b :=
    if a.1.blasts.length < desiredBlasts then
      fallbackLoop st dst baseX baseY config.spread targetOwner preferLand
        desiredBlasts minSpacingSquared maxAttempts maxAttempts a.1 a.2
    else a
  (if b.1.blasts.length = 0 then [dst] else b.1.blasts, b.2)

/-- The `new RocketExecution(UnitType.ClusterRocket, player, target, origin,
{...})` constructor call of `splitClusterRocket` (RocketExecution.ts:346-362):
a secondary cluster bomblet with every check and record skipped. -/
def mkBombletExec (pid : PlayerId) (origin target : TileRef) : RocketExec :=
  { rocketType := RocketUnitType.ClusterRocket
    playerId := pid
    dst := target
    src := some origin
    options := { skipSpawnChecks := true, skipLaunchCooldown := true,
                 skipCost := true, skipStats := true, isClusterBomblet := true } }

/-- The `bombLand` statistics step shared by `detonate` and
`splitClusterRocket` (RocketExecution.ts:271-278 and 370-377). -/
def recordBombLand (ex : RocketExec) (st : GameState) : GameState :=
  if ex.options.skipStats then st
  else
    match st.ownerOf ex.dst with
    | some target =>
      { st with stats := st.stats ++
          [StatEvent.bombLand ex.playerId target ex.rocketType.toUnitType] }
    | none => st

/-- `splitClusterRocket` (RocketExecution.ts:335-378): generate the cluster
targets, enqueue one bomblet execution per target, then retire the parent
rocket.  A missing rocket object is a fatal error. -/
def splitClusterRocket (ex : RocketExec) (config : RocketConfig) (st : GameState)
    (r : Rand) : Except String (RocketExec × GameState × Rand) :=
  match ex.rocket with
  | none => Except.error "Rocket not initialized"
  | some ru =>
    let origin := ru.tile
    let gen := generateClusterBlasts st ex.dst config CLUSTER_BOMBLET_COUNT r
    let st1 := { st with pendingExecs :=
      st.pendingExecs ++ gen.1.map (mkBombletExec ex.playerId origin) }
    let p1 := mutateRocket { ex with active := false } st1
      fun u => { u with payloadTiles := [], reachedTarget := true }
    let st2 := deleteUnit p1.2 ru.id
    let ex2 := { p1.1 with rocket := none }
    Except.ok (ex2, recordBombLand ex2 st2, gen.2)

/-- The bounded scatter loop of `detonate`'s tactical branch
(RocketExecution.ts:233-253), recursing on the remaining attempts. -/
def scatterLoop (st : GameState) (dst : TileRef) (totalBlasts : Nat) :
    Nat → GenSt → Rand → GenSt × Rand
  | 0, g, r => (g, r)
  | fuel + 1, g, r =>
    if totalBlasts ≤ g.blasts.length then (g, r)
    else
      let d := r.nextPolarOffset
      if d.1.1 = 0 ∧ d.1.2 = 0 then scatterLoop st dst totalBlasts fuel g d.2
      else
        let x := (st.map.xOf dst : Int) + d.1.1
        let y := (st.map.yOf dst : Int) + d.1.2
        if !(st.map.isValidCoord x y) then scatterLoop st dst totalBlasts fuel g d.2
        else scatterLoop st dst totalBlasts fuel (addBlast g (st.map.ref x.toNat y.toNat)) d.2

/-- `detonate` (RocketExecution.ts:201-279): split a non-bomblet cluster
rocket; otherwise collect the blast centers (the destination, plus for the
tactical variant a bounded random scatter), apply every blast, refresh nearby
structures and retire the rocket.  A missing rocket object is a fatal error. -/
def detonate (ex : RocketExec) (st : GameState) (r : Rand) :
    Except String (RocketExec × GameState × Rand) :=
  match ex.rocket with
  | none => Except.error "Rocket not initialized"
  | some ru =>
    let config := rocketConfig ex.rocketType
    if ex.rocketType = RocketUnitType.ClusterRocket ∧
        ex.options.isClusterBomblet = false then
      splitClusterRocket ex config st r
    else
      let g0 : GenSt := addBlast {} ex.dst
      let bl :=
        if ex.rocketType = RocketUnitType.ClusterRocket then (g0.blasts, r)
        else
          if 0 < config.spread then
            let tb := randomBurstCount config r
            let sc := scatterLoop st ex.dst tb.1 (tb.1 * 8) g0 tb.2
            (sc.1.blasts, sc.2)
          else (g0.blasts, r)
      let blasts := bl.1
      let p1 := if ru.tile ≠ ex.dst then
          mutateRocket ex st (fun u => { u with tile := ex.dst })
        else (ex, st)
      let p2 := mutateRocket p1.1 p1.2 fun u => { u with payloadTiles := blasts }
      let st1 := applyBlasts p2.2 ex.playerId blasts config.blastRadius config.troopDamage
      let st2 := redrawBuildings st1 (config.blastRadius + 4) blasts
      let p3 := mutateRocket { p2.1 with active := false } st2
        fun u => { u with reachedTarget := true }
      let st3 := deleteUnit p3.2 ru.id
      Except.ok (p3.1, recordBombLand p3.1 st3, bl.2)

/-- The spawn-tile determination of `tick` (RocketExecution.ts:79-99): with
spawn checks skipped, the supplied source tile or failure; otherwise the
supplied source tile with `Player.canBuild` as the fallback. -/
def determineSpawn (ex : RocketExec) (st : GameState) : Option TileRef :=
  if ex.options.skipSpawnChecks then ex.src
  else
    match ex.src with
    | some s => some s
    | none => st.canBuildAt ex.playerId ex.rocketType.toUnitType ex.dst

/-- Modelled from the spec: `Player.buildUnit(type, tile, options)` creates
the unit at the tile, owned by the player, and consumes the configured build
cost from the player's gold. -/
def buildUnit (st : GameState) (pid : PlayerId) (ut : UnitType)
    (tile target : TileRef) (traj : List TrajectoryTile) : Unit × GameState :=
  let u : Unit := { id := st.nextId, utype := ut, ownerId := pid, tile := tile,
                    targetTile := some target, trajectory := traj }
  (u, { st with
        units := st.units ++ [u]
        nextId := st.nextId + 1
        players := updateP st.players pid fun pl =>
          { pl with gold := pl.gold - st.buildCost ut } })

/-- The build half of `tick`'s spawn branch (RocketExecution.ts:114-140):
precompute the path, build the rocket, refund the cost when `skipCost`, put
the carrier into cooldown unless skipped, and record the launch statistic. -/
def buildRocket (ex : RocketExec) (spawn : TileRef) (st : GameState) (r : Rand) :
    RocketExec × GameState × Rand :=
  let config := rocketConfig ex.rocketType
  let path := st.pathOracle spawn ex.dst config.speed
  let ex1 := { ex with path := path, pathIdx := 0 }
  let goldBefore := (st.players ex.playerId).gold
  let bu := buildUnit st ex.playerId ex.rocketType.toUnitType spawn ex.dst
    (getTrajectory st (some spawn) ex.dst path)
  let ex2 := { ex1 with rocket := some bu.1 }
  let st2 :=
    if ex.options.skipCost then
      let spentGold := goldBefore - (bu.2.players ex.playerId).gold
      if 0 < spentGold then
        { bu.2 with players := updateP bu.2.players ex.playerId fun pl =>
            { pl with gold := pl.gold + spentGold } }
      else bu.2
    else bu.2
  let p3 :=
    if ex.options.skipLaunchCooldown = false then
      match ex2.carrier with
      | some c =>
        ({ ex2 with carrier := some (launchUnit st2.missileShipCooldown c) },
         updateUnit st2 c.id (launchUnit st2.missileShipCooldown))
      | none => (ex2, st2)
    else (ex2, st2)
  let st4 :=
    if ex.options.skipStats = false then
      match p3.2.ownerOf ex.dst with
      | some target =>
        { p3.2 with stats := p3.2.stats ++
            [StatEvent.bombLaunch ex.playerId target ex.rocketType.toUnitType] }
      | none => p3.2
    else p3.2
  (p3.1, st4, r)

/-- Modelled from the spec: `ParabolaPathFinder.nextTile(speed)` advances the
progress by `speed` along the precomputed samples and signals completion (the
terminal sentinel, here `none`) once the destination is reached or passed. -/
def nextTileOf (ex : RocketExec) (speed : Nat) : Option TileRef :=
  ex.path.get? (ex.pathIdx + speed)

/-- `tick` (RocketExecution.ts:77-158).  Before the rocket exists: determine
the spawn, check the carrier unless skipped, and build — every precondition
failure deactivates the execution and returns normally.  Afterwards: advance
along the path or detonate. -/
def tick (ex : RocketExec) (st : GameState) (r : Rand) :
    Except String (RocketExec × GameState × Rand) :=
  match ex.rocket with
  | none =>
    match determineSpawn ex st with
    | none => Except.ok ({ ex with active := false }, st, r)
    | some spawn =>
      let ex1 := { ex with src := some spawn }
      if ex1.options.skipSpawnChecks then Except.ok (buildRocket ex1 spawn st r)
      else
        match (match ex1.carrier with
               | some c => some c
               | none => findCarrier st ex1.playerId spawn) with
        | none => Except.ok ({ ex1 with active := false }, st, r)
        | some c =>
          let ex2 := { ex1 with carrier := some c }
          if c.isInCooldown then Except.ok ({ ex2 with active := false }, st, r)
          else Except.ok (buildRocket ex2 spawn st r)
  | some ru =>
    if ru.active = false then Except.ok ({ ex with active := false }, st, r)
    else
      let config := rocketConfig ex.rocketType
      match nextTileOf ex config.speed with
      | none => detonate ex st r
      | some nextTile =>
        let p1 := updateRocketTargetable ex st
        let p2 := mutateRocket p1.1 p1.2 fun u =>
          { u with tile := nextTile, trajectoryIndex := ex.pathIdx + config.speed }
        Except.ok ({ p2.1 with pathIdx := ex.pathIdx + config.speed }, p2.2, r)

/-! ## Concrete fixtures used by witnesses and counterexamples -/

/-- A concrete oracle: every raw draw is zero. -/
def oracle0 : Rand := { ints := fun _ => 0, offs := fun _ => (0, 0) }

/-- A one-tile map: the only valid coordinate pair is (0, 0). -/
def map1 : GameMap := { width := 1, height := 1, land := fun _ => true }

/-- A concrete cluster-rocket unit sitting on the only tile of `map1`. -/
def ruC : Unit := { id := 0, utype := UnitType.ClusterRocket, ownerId := 0, tile := 0 }

/-- The one-tile world holding only the rocket unit, nobody owning land. -/
def stOne : GameState :=
  { map := map1, ownerOf := fun _ => none, players := fun _ => {},
    units := [ruC], nextId := 1 }

/-- A non-bomblet cluster-rocket execution on `stOne`, its rocket built. -/
def exC : RocketExec :=
  { rocketType := RocketUnitType.ClusterRocket, playerId := 0, dst := 0,
    src := some 0, rocket := some ruC }

/-- A cluster-bomblet execution on `stOne`, its rocket built. -/
def exB : RocketExec := { mkBombletExec 0 0 0 with rocket := some ruC }

/-! ## Ownership-preservation lemmas (frame of every detonation step) -/

theorem applyBlast_ownerOf (st : GameState) (pid : PlayerId) (c : TileRef)
    (radius : Nat) (dmg : Int) : (applyBlast st pid c radius dmg).ownerOf = st.ownerOf := rfl

theorem applyBlasts_cons (st : GameState) (pid : PlayerId) (c : TileRef)
    (cs : List TileRef) (radius : Nat) (dmg : Int) :
    applyBlasts st pid (c :: cs) radius dmg =
      applyBlasts (applyBlast st pid c radius dmg) pid cs radius dmg := rfl

theorem applyBlasts_ownerOf (centers : List TileRef) : ∀ (st : GameState)
    (pid : PlayerId) (radius : Nat) (dmg : Int),
    (applyBlasts st pid centers radius dmg).ownerOf = st.ownerOf := by
  induction centers with
  | nil => intro st pid radius dmg; rfl
  | cons c cs ih =>
    intro st pid radius dmg
    rw [applyBlasts_cons, ih, applyBlast_ownerOf]

theorem redrawBuildings_ownerOf (st : GameState) (range : Nat) (centers : List TileRef) :
    (redrawBuildings st range centers).ownerOf = st.ownerOf := rfl

theorem updateUnit_ownerOf (st : GameState) (uid : Nat) (f : Unit → Unit) :
    (updateUnit st uid f).ownerOf = st.ownerOf := rfl

theorem deleteUnit_ownerOf (st : GameState) (uid : Nat) :
    (deleteUnit st uid).ownerOf = st.ownerOf := rfl

theorem mutateRocket_ownerOf (ex : RocketExec) (st : GameState) (f : Unit → Unit) :
    (mutateRocket ex st f).2.ownerOf = st.ownerOf := by
  cases h : ex.rocket <;> simp [mutateRocket, h, updateUnit_ownerOf]

theorem recordBombLand_ownerOf (ex : RocketExec) (st : GameState) :
    (recordBombLand ex st).ownerOf = st.ownerOf := by
  unfold recordBombLand
  split
  · rfl
  · split <;> rfl

theorem splitClusterRocket_ownerOf (ex : RocketExec) (config : RocketConfig)
    (st : GameState) (r : Rand) (out : RocketExec × GameState × Rand)
    (h : splitClusterRocket ex config st r = Except.ok out) :
    out.2.1.ownerOf = st.ownerOf := by
  cases hr : ex.rocket with
  | none => simp [splitClusterRocket, hr] at h
  | some ru =>
    simp only [splitClusterRocket, hr, Except.ok.injEq] at h
    subst h
    simp only [recordBombLand_ownerOf, deleteUnit_ownerOf, mutateRocket_ownerOf]

/-- C2: For every detonation (tactical, cluster, or bomblet), blast application
never changes the owner of any tile: it only removes troops from owning players
and deletes units, so for every tile the ownership state immediately after
`detonate` equals the ownership state immediately before it. -/
theorem c2_detonate_preserves_ownership (ex : RocketExec) (st : GameState) (r : Rand)
    (out : RocketExec × GameState × Rand) (h : detonate ex st r = Except.ok out)
    (t : TileRef) : out.2.1.ownerOf t = st.ownerOf t := by
  cases hr : ex.rocket with
  | none => simp [detonate, hr] at h
  | some ru =>
    simp only [detonate, hr] at h
    by_cases hsplit : ex.rocketType = RocketUnitType.ClusterRocket ∧
        ex.options.isClusterBomblet = false
    · rw [if_pos hsplit] at h
      rw [splitClusterRocket_ownerOf ex (rocketConfig ex.rocketType) st r out h]
    · rw [if_neg hsplit] at h
      simp only [Except.ok.injEq] at h
      subst h
      simp only [recordBombLand_ownerOf, deleteUnit_ownerOf, mutateRocket_ownerOf,
        redrawBuildings_ownerOf, applyBlasts_ownerOf]
      split <;> simp only [mutateRocket_ownerOf]

/-- The concrete outcome of detonating the bomblet `exB` on `stOne`. -/
def outB : RocketExec × GameState × Rand :=
  (detonate exB stOne oracle0).toOption.getD (exB, stOne, oracle0)

/-- C2 witness: the bomblet detonation on the one-tile world leaves the
(unowned) destination tile's ownership exactly as it was. -/
theorem c2_witness : outB.2.1.ownerOf 0 = stOne.ownerOf 0 :=
  c2_detonate_preserves_ownership exB stOne oracle0 outB (by rfl) 0

/-! ## Troop damage is clamped (C5) -/

theorem blastTroopStep_troops (ownerOf : TileRef → Option PlayerId) (dmg : Int)
    (ps : PlayerId → PlayerState) (t : TileRef) (q : PlayerId)
    (hd : 0 ≤ dmg) (hq : 0 ≤ (ps q).troops) :
    0 ≤ ((blastTroopStep ownerOf dmg ps t) q).troops ∧
      ((blastTroopStep ownerOf dmg ps t) q).troops ≤ (ps q).troops := by
  unfold blastTroopStep
  cases ownerOf t with
  | none => exact ⟨hq, le_refl _⟩
  | some p =>
    dsimp only
    unfold updateP
    by_cases hpq : q = p
    · subst hpq
      rw [if_pos rfl]
      dsimp only
      rcases le_total dmg (ps q).troops with hle | hle
      · rw [min_eq_left hle]
        constructor <;> omega
      · rw [min_eq_right hle]
        constructor <;> omega
    · rw [if_neg hpq]
      exact ⟨hq, le_refl _⟩

theorem foldTroops_bounds (ownerOf : TileRef → Option PlayerId) (dmg : Int)
    (hd : 0 ≤ dmg) (tiles : List TileRef) : ∀ (ps : PlayerId → PlayerState)
    (q : PlayerId), 0 ≤ (ps q).troops →
    0 ≤ ((tiles.foldl (blastTroopStep ownerOf dmg) ps) q).troops ∧
      ((tiles.foldl (blastTroopStep ownerOf dmg) ps) q).troops ≤ (ps q).troops := by
  induction tiles with
  | nil => intro ps q hq; exact ⟨hq, le_refl _⟩
  | cons t ts ih =>
    intro ps q hq
    have hstep := blastTroopStep_troops ownerOf dmg ps t q hd hq
    have hrest := ih (blastTroopStep ownerOf dmg ps t) q hstep.1
    exact ⟨hrest.1, le_trans hrest.2 hstep.2⟩

/-- C5: For every blast center and every player owning a tile within the blast
radius, the troop damage applied is the minimum of the configured damage and
that player's current troop count, so no player's troop count ever becomes
negative as a result of blast application (and blast application never adds
troops). -/
theorem c5_blast_troops_clamped (st : GameState) (pid : PlayerId) (center : TileRef)
    (radius : Nat) (dmg : Int) (q : PlayerId) (hd : 0 ≤ dmg)
    (hq : 0 ≤ (st.players q).troops) :
    (0 ≤ ((applyBlast st pid center radius dmg).players q).troops ∧
      ((applyBlast st pid center radius dmg).players q).troops ≤ (st.players q).troops) ∧
    (∀ (ps : PlayerId → PlayerState) (t : TileRef) (p : PlayerId),
      st.ownerOf t = some p →
      ((blastTroopStep st.ownerOf dmg ps t) p).troops = (ps p).troops - min dmg (ps p).troops) := by
  constructor
  · exact foldTroops_bounds st.ownerOf dmg hd _ st.players q hq
  · intro ps t p hp
    unfold blastTroopStep
    rw [hp]
    dsimp only
    unfold updateP
    rw [if_pos rfl]

/-- A one-tile world whose tile is owned by player 0, holding 100 troops. -/
def stT : GameState :=
  { map := map1, ownerOf := fun _ => some 0, players := fun _ => { troops := 100 } }

/-- C5 witness: blasting the tactical damage (450) into the one-tile world
owned by player 0 with 100 troops leaves a non-negative, non-increased count. -/
theorem c5_witness :
    (0 ≤ ((applyBlast stT 1 0 1 450).players 0).troops ∧
      ((applyBlast stT 1 0 1 450).players 0).troops ≤ (stT.players 0).troops) ∧
    (∀ (ps : PlayerId → PlayerState) (t : TileRef) (p : PlayerId),
      stT.ownerOf t = some p →
      ((blastTroopStep stT.ownerOf 450 ps t) p).troops = (ps p).troops - min 450 (ps p).troops) :=
  c5_blast_troops_clamped stT 1 0 1 450 0 (by decide) (by decide)

/-! ## Unit destruction inside the blast radius (C6) -/

theorem applyBlast_units (st : GameState) (pid : PlayerId) (c : TileRef)
    (radius : Nat) (dmg : Int) :
    (applyBlast st pid c radius dmg).units = st.units.filter fun u =>
      isMunitionType u.utype || !(decide (st.map.distSq c u.tile ≤ radius * radius)) := rfl

theorem applyBlast_map (st : GameState) (pid : PlayerId) (c : TileRef)
    (radius : Nat) (dmg : Int) : (applyBlast st pid c radius dmg).map = st.map := rfl

/-- C6: For every blast center, every unit whose position lies within the blast
radius is destroyed (deleted) unless its type is a munition type; munition-type
units are never destroyed by blast application, even when several blasts
overlap them: a unit survives the blast sequence exactly when it is a munition
or lies strictly outside the radius of every center. -/
theorem c6_blast_unit_destruction (st : GameState) (pid : PlayerId)
    (centers : List TileRef) (radius : Nat) (dmg : Int) (u : Unit) :
    u ∈ (applyBlasts st pid centers radius dmg).units ↔
      (u ∈ st.units ∧ (isMunitionType u.utype = true ∨
        ∀ c ∈ centers, radius * radius < st.map.distSq c u.tile)) := by
  induction centers generalizing st with
  | nil => simp [applyBlasts]
  | cons c cs ih =>
    rw [applyBlasts_cons, ih]
    simp only [applyBlast_map, applyBlast_units, List.mem_filter,
      List.forall_mem_cons, Bool.or_eq_true, Bool.not_eq_true',
      decide_eq_true_eq, decide_eq_false_iff_not, not_le]
    tauto

/-! ## Cluster-target generation: length bounds (C1) -/

theorem addIfValid_le (m : GameMap) (sq : Nat) (enf : Bool) (t : Option TileRef)
    (g : GenSt) :
    g.blasts.length ≤ (addIfValid m sq enf t g).1.blasts.length ∧
      (addIfValid m sq enf t g).1.blasts.length ≤ g.blasts.length + 1 := by
  unfold addIfValid
  cases t with
  | none => simp
  | some tile =>
    dsimp only
    split
    · simp
    · split
      · simp
      · simp

theorem ownerPhaseLoop_bounds (m : GameMap) (desired minSp : Nat) :
    ∀ (ts : List TileRef) (g : GenSt),
      g.blasts.length ≤ (ownerPhaseLoop m desired minSp ts g).blasts.length ∧
      (g.blasts.length ≤ desired →
        (ownerPhaseLoop m desired minSp ts g).blasts.length ≤ desired) := by
  intro ts
  induction ts with
  | nil => intro g; exact ⟨le_refl _, fun hle => hle⟩
  | cons t rest ih =>
    intro g
    rw [ownerPhaseLoop]
    split
    · exact ⟨le_refl _, fun hle => hle⟩
    · rename_i hnot
      have hadd := addIfValid_le m minSp true (some t) g
      have hrec := ih (addIfValid m minSp true (some t) g).1
      constructor
      · exact le_trans hadd.1 hrec.1
      · intro _
        exact hrec.2 (by omega)

theorem attemptLoop_bounds (st : GameState) (dst : TileRef)
    (baseX baseY spread : Nat) (towner : Option PlayerId) (pl : Bool)
    (desired minSp maxA : Nat) :
    ∀ (fuel : Nat) (g : GenSt) (r : Rand),
      g.blasts.length ≤
        (attemptLoop st dst baseX baseY spread towner pl desired minSp maxA fuel g r).1.blasts.length ∧
      (g.blasts.length ≤ desired →
        (attemptLoop st dst baseX baseY spread towner pl desired minSp maxA fuel g r).1.blasts.length ≤ desired) := by
  intro fuel
  induction fuel with
  | zero => intro g r; exact ⟨le_refl _, fun hle => hle⟩
  | succ n ih =>
    intro g r
    rw [attemptLoop]
    split
    · exact ⟨le_refl _, fun hle => hle⟩
    · rename_i hnot
      have hadd := addIfValid_le st.map minSp true
        (randomClusterTarget st dst baseX baseY spread
          (if decide (maxA / 2 < maxA - n) = true then none else towner) pl r).1 g
      have hrec := ih (addIfValid st.map minSp true
        (randomClusterTarget st dst baseX baseY spread
          (if decide (maxA / 2 < maxA - n) = true then none else towner) pl r).1 g).1
        (randomClusterTarget st dst baseX baseY spread
          (if decide (maxA / 2 < maxA - n) = true then none else towner) pl r).2
      constructor
      · exact le_trans hadd.1 hrec.1
      · intro _
        exact hrec.2 (by omega)

theorem fallbackLoop_bounds (st : GameState) (dst : TileRef)
    (baseX baseY spread : Nat) (towner : Option PlayerId) (pl : Bool)
    (desired minSp maxA : Nat) :
    ∀ (fuel : Nat) (g : GenSt) (r : Rand),
      g.blasts.length ≤
        (fallbackLoop st dst baseX baseY spread towner pl desired minSp maxA fuel g r).1.blasts.length ∧
      (g.blasts.length ≤ desired →
        (fallbackLoop st dst baseX baseY spread towner pl desired minSp maxA fuel g r).1.blasts.length ≤ desired) := by
  intro fuel
  induction fuel with
  | zero => intro g r; exact ⟨le_refl _, fun hle => hle⟩
  | succ n ih =>
    intro g r
    rw [fallbackLoop]
    split
    · exact ⟨le_refl _, fun hle => hle⟩
    · rename_i hnot
      have hadd := addIfValid_le st.map minSp false
        (randomClusterTarget st dst baseX baseY spread
          (if decide (n < maxA / 2) = true then none else towner) pl r).1 g
      have hrec := ih (addIfValid st.map minSp false
        (randomClusterTarget st dst baseX baseY spread
          (if decide (n < maxA / 2) = true then none else towner) pl r).1 g).1
        (randomClusterTarget st dst baseX baseY spread
          (if decide (n < maxA / 2) = true then none else towner) pl r).2
      constructor
      · exact le_trans hadd.1 hrec.1
      · intro _
        exact hrec.2 (by omega)

theorem generateClusterBlasts_length_bounds (st : GameState) (dst : TileRef)
    (config : RocketConfig) (desired : Nat) (r : Rand) (hd : 1 ≤ desired) :
    1 ≤ (generateClusterBlasts st dst config desired r).1.length ∧
      (generateClusterBlasts st dst config desired r).1.length ≤ desired := by
  unfold generateClusterBlasts
  dsimp only
  have hg0 : ((addIfValid st.map
      ((max 4 (config.minClusterSpacing.getD (max config.spread 1 / 3))) *
        (max 4 (config.minClusterSpacing.getD (max config.spread 1 / 3)))) false
      (some dst) {}).1 : GenSt).blasts = [dst] := rfl
  set msq := (max 4 (config.minClusterSpacing.getD (max config.spread 1 / 3))) *
    (max 4 (config.minClusterSpacing.getD (max config.spread 1 / 3))) with hmsq
  set g0 := (addIfValid st.map msq false (some dst) {}).1 with hg0def
  set maxA := max 20 (desired * 60) with hmaxA
  have hg0len : g0.blasts.length = 1 := by rw [hg0]; rfl
  set g1 := (match st.ownerOf dst with
    | some p => ownerPhaseLoop st.map desired msq (clusterOwnerTargets st dst config.spread p) g0
    | none => g0) with hg1
  have hg1b : 1 ≤ g1.blasts.length ∧ g1.blasts.length ≤ desired := by
    rw [hg1]
    cases st.ownerOf dst with
    | none => dsimp only; omega
    | some p =>
      dsimp only
      have hb := ownerPhaseLoop_bounds st.map desired msq
        (clusterOwnerTargets st dst config.spread p) g0
      constructor
      · exact le_trans (by omega) hb.1
      · exact hb.2 (by omega)
  set a := attemptLoop st dst (st.map.xOf dst) (st.map.yOf dst) config.spread
    (st.ownerOf dst) (st.map.land dst) desired msq maxA maxA g1 r with ha
  have hab := attemptLoop_bounds st dst (st.map.xOf dst) (st.map.yOf dst)
    config.spread (st.ownerOf dst) (st.map.land dst) desired msq maxA maxA g1 r
  have haB : 1 ≤ a.1.blasts.length ∧ a.1.blasts.length ≤ desired := by
    constructor
    · exact le_trans hg1b.1 hab.1
    · exact hab.2 hg1b.2
  set b := (if a.1.blasts.length < desired then
      fallbackLoop st dst (st.map.xOf dst) (st.map.yOf dst) config.spread
        (st.ownerOf dst) (st.map.land dst) desired msq maxA maxA a.1 a.2
    else a) with hb
  have hbB : 1 ≤ b.1.blasts.length ∧ b.1.blasts.length ≤ desired := by
    rw [hb]
    split
    · have hfb := fallbackLoop_bounds st dst (st.map.xOf dst) (st.map.yOf dst)
        config.spread (st.ownerOf dst) (st.map.land dst) desired msq maxA maxA a.1 a.2
      exact ⟨le_trans haB.1 hfb.1, hfb.2 haB.2⟩
    · exact haB
  split
  · constructor <;> omega
  · exact hbB

/-! ## On the one-tile map every random candidate is the destination itself -/

theorem validCoord_one (x y : Int) (h : map1.isValidCoord x y = true) :
    x = 0 ∧ y = 0 := by
  unfold GameMap.isValidCoord map1 at h
  simp only [Bool.and_eq_true, decide_eq_true_eq] at h
  omega

theorem rctGo_one (baseX baseY spread : Nat) (towner : Option PlayerId)
    (pl : Bool) : ∀ (fuel : Nat) (r : Rand),
    (rctGo stOne 0 baseX baseY spread towner pl fuel r).1 = none ∨
    (rctGo stOne 0 baseX baseY spread towner pl fuel r).1 = some 0 := by
  intro fuel
  induction fuel with
  | zero => intro r; exact Or.inl rfl
  | succ n ih =>
    intro r
    rw [rctGo]
    dsimp only
    split
    · exact ih _
    · rename_i hvalid
      have hv : stOne.map.isValidCoord
          (r.nextIntO ((baseX : Int) - spread) ((baseX : Int) + spread + 1)).1
          ((r.nextIntO ((baseX : Int) - spread) ((baseX : Int) + spread + 1)).2.nextIntO
            ((baseY : Int) - spread) ((baseY : Int) + spread + 1)).1 = true := by
        revert hvalid
        cases stOne.map.isValidCoord
          (r.nextIntO ((baseX : Int) - spread) ((baseX : Int) + spread + 1)).1
          ((r.nextIntO ((baseX : Int) - spread) ((baseX : Int) + spread + 1)).2.nextIntO
            ((baseY : Int) - spread) ((baseY : Int) + spread + 1)).1 <;> simp
      obtain ⟨hx, hy⟩ := validCoord_one _ _ hv
      rw [hx, hy]
      split
      · exact ih _
      · split
        · exact ih _
        · split
          · exact ih _
          · exact Or.inr rfl

theorem randomClusterTarget_one (baseX baseY spread : Nat)
    (towner : Option PlayerId) (pl : Bool) (r : Rand) :
    (randomClusterTarget stOne 0 baseX baseY spread towner pl r).1 = none ∨
    (randomClusterTarget stOne 0 baseX baseY spread towner pl r).1 = some 0 := by
  unfold randomClusterTarget
  split
  · exact Or.inr rfl
  · exact rctGo_one baseX baseY spread towner pl 80 r

theorem addIfValid_rejected (m : GameMap) (sq : Nat) (enf : Bool)
    (t : Option TileRef) (g : GenSt)
    (h : ∀ x, t = some x → g.seen.contains x = true) :
    (addIfValid m sq enf t g).1 = g := by
  unfold addIfValid
  cases t with
  | none => rfl
  | some tile =>
    dsimp only
    rw [if_pos (h tile rfl)]

theorem attemptLoop_one (baseX baseY spread : Nat) (towner : Option PlayerId)
    (pl : Bool) (desired minSp maxA : Nat) :
    ∀ (fuel : Nat) (g : GenSt) (r : Rand), g.seen.contains 0 = true →
    (attemptLoop stOne 0 baseX baseY spread towner pl desired minSp maxA fuel g r).1 = g := by
  intro fuel
  induction fuel with
  | zero => intro g r _; rfl
  | succ n ih =>
    intro g r hseen
    rw [attemptLoop]
    dsimp only
    split
    · rfl
    · rw [addIfValid_rejected stOne.map minSp true _ g ?_]
      · exact ih g _ hseen
      · intro x hx
        rcases randomClusterTarget_one baseX baseY spread
            (if decide (maxA / 2 < maxA - n) = true then none else towner) pl r with hc | hc
        · rw [hc] at hx; cases hx
        · rw [hc] at hx
          cases hx
          exact hseen

theorem fallbackLoop_one (baseX baseY spread : Nat) (towner : Option PlayerId)
    (pl : Bool) (desired minSp maxA : Nat) :
    ∀ (fuel : Nat) (g : GenSt) (r : Rand), g.seen.contains 0 = true →
    (fallbackLoop stOne 0 baseX baseY spread towner pl desired minSp maxA fuel g r).1 = g := by
  intro fuel
  induction fuel with
  | zero => intro g r _; rfl
  | succ n ih =>
    intro g r hseen
    rw [fallbackLoop]
    dsimp only
    split
    · rfl
    · rw [addIfValid_rejected stOne.map minSp false _ g ?_]
      · exact ih g _ hseen
      · intro x hx
        rcases randomClusterTarget_one baseX baseY spread
            (if decide (n < maxA / 2) = true then none else towner) pl r with hc | hc
        · rw [hc] at hx; cases hx
        · rw [hc] at hx
          cases hx
          exact hseen

/-- On the one-tile world the multi-phase placement of `generateClusterBlasts`
finds exactly one target — the destination — whatever the oracle draws and
whatever the configuration. -/
theorem generateClusterBlasts_one (config : RocketConfig) (desired : Nat)
    (r : Rand) : (generateClusterBlasts stOne 0 config desired r).1 = [0] := by
  unfold generateClusterBlasts
  dsimp only
  have hown : stOne.ownerOf 0 = none := rfl
  rw [hown]
  dsimp only
  have hg0 : (addIfValid stOne.map
      ((max 4 (config.minClusterSpacing.getD (max config.spread 1 / 3))) *
        (max 4 (config.minClusterSpacing.getD (max config.spread 1 / 3)))) false
      (some 0) {}).1 = ({ blasts := [0], seen := [0] } : GenSt) := rfl
  rw [hg0]
  rw [attemptLoop_one (stOne.map.xOf 0) (stOne.map.yOf 0) config.spread none
    (stOne.map.land 0) desired
    ((max 4 (config.minClusterSpacing.getD (max config.spread 1 / 3))) *
      (max 4 (config.minClusterSpacing.getD (max config.spread 1 / 3))))
    (max 20 (desired * 60)) (max 20 (desired * 60))
    { blasts := [0], seen := [0] } r rfl]
  split
  · rw [fallbackLoop_one (stOne.map.xOf 0) (stOne.map.yOf 0) config.spread none
      (stOne.map.land 0) desired
      ((max 4 (config.minClusterSpacing.getD (max config.spread 1 / 3))) *
        (max 4 (config.minClusterSpacing.getD (max config.spread 1 / 3))))
      (max 20 (desired * 60)) (max 20 (desired * 60))
      { blasts := [0], seen := [0] } _ rfl]
    rfl
  · rw [attemptLoop_one (stOne.map.xOf 0) (stOne.map.yOf 0) config.spread none
      (stOne.map.land 0) desired
      ((max 4 (config.minClusterSpacing.getD (max config.spread 1 / 3))) *
        (max 4 (config.minClusterSpacing.getD (max config.spread 1 / 3))))
      (max 20 (desired * 60)) (max 20 (desired * 60))
      { blasts := [0], seen := [0] } r rfl]
    rfl

/-! ## What the cluster split enqueues (C1, C10) -/

theorem applyBlast_pending (st : GameState) (pid : PlayerId) (c : TileRef)
    (radius : Nat) (dmg : Int) :
    (applyBlast st pid c radius dmg).pendingExecs = st.pendingExecs := rfl

theorem applyBlasts_pending (centers : List TileRef) : ∀ (st : GameState)
    (pid : PlayerId) (radius : Nat) (dmg : Int),
    (applyBlasts st pid centers radius dmg).pendingExecs = st.pendingExecs := by
  induction centers with
  | nil => intro st pid radius dmg; rfl
  | cons c cs ih =>
    intro st pid radius dmg
    rw [applyBlasts_cons, ih, applyBlast_pending]

theorem redrawBuildings_pending (st : GameState) (range : Nat)
    (centers : List TileRef) :
    (redrawBuildings st range centers).pendingExecs = st.pendingExecs := rfl

theorem updateUnit_pending (st : GameState) (uid : Nat) (f : Unit → Unit) :
    (updateUnit st uid f).pendingExecs = st.pendingExecs := rfl

theorem deleteUnit_pending (st : GameState) (uid : Nat) :
    (deleteUnit st uid).pendingExecs = st.pendingExecs := rfl

theorem mutateRocket_pending (ex : RocketExec) (st : GameState) (f : Unit → Unit) :
    (mutateRocket ex st f).2.pendingExecs = st.pendingExecs := by
  cases h : ex.rocket <;> simp [mutateRocket, h, updateUnit_pending]

theorem recordBombLand_pending (ex : RocketExec) (st : GameState) :
    (recordBombLand ex st).pendingExecs = st.pendingExecs := by
  unfold recordBombLand
  split
  · rfl
  · split <;> rfl

theorem splitClusterRocket_isOk (ex : RocketExec) (config : RocketConfig)
    (st : GameState) (r : Rand) (ru : Unit) (h : ex.rocket = some ru) :
    ∃ out, splitClusterRocket ex config st r = Except.ok out := by
  cases hc : splitClusterRocket ex config st r with
  | ok o => exact ⟨o, rfl⟩
  | error e =>
    rw [splitClusterRocket, h] at hc
    simp at hc

theorem splitClusterRocket_pending (ex : RocketExec) (config : RocketConfig)
    (st : GameState) (r : Rand) (out : RocketExec × GameState × Rand) (ru : Unit)
    (h : ex.rocket = some ru)
    (hok : splitClusterRocket ex config st r = Except.ok out) :
    out.2.1.pendingExecs = st.pendingExecs ++
      (generateClusterBlasts st ex.dst config CLUSTER_BOMBLET_COUNT r).1.map
        (mkBombletExec ex.playerId ru.tile) := by
  unfold splitClusterRocket at hok
  rw [h] at hok
  simp only [Except.ok.injEq] at hok
  subst hok
  simp only [recordBombLand_pending, deleteUnit_pending, mutateRocket_pending]

/-- The number of executions the split enqueued, read off the outcome. -/
def splitSpawnCount (ex : RocketExec) (config : RocketConfig) (st : GameState)
    (r : Rand) : Option Nat :=
  match splitClusterRocket ex config st r with
  | Except.ok out => some (out.2.1.pendingExecs.length - st.pendingExecs.length)
  | Except.error _ => none

/-- C1 counterexample: on the one-tile world (a concrete map, a concrete
oracle) the non-bomblet cluster rocket's split spawns exactly one secondary
rocket execution, not the configured bomblet count CLUSTER_BOMBLET_COUNT = 5 —
the claim's "regardless of map contents" and "how many random placement
attempts fail" does not hold. -/
theorem c1_counterexample :
    splitSpawnCount exC (rocketConfig RocketUnitType.ClusterRocket) stOne oracle0 =
      some 1 ∧ CLUSTER_BOMBLET_COUNT = 5 := by
  constructor
  · obtain ⟨out, hok⟩ := splitClusterRocket_isOk exC
      (rocketConfig RocketUnitType.ClusterRocket) stOne oracle0 ruC rfl
    have hp := splitClusterRocket_pending exC
      (rocketConfig RocketUnitType.ClusterRocket) stOne oracle0 out ruC rfl hok
    have hdst : exC.dst = 0 := rfl
    rw [hdst, generateClusterBlasts_one] at hp
    unfold splitSpawnCount
    rw [hok]
    dsimp only
    rw [hp]
    rfl
  · rfl

/-- C1 (amended): for every cluster rocket that is not itself a bomblet, the
split spawns exactly one secondary cluster-bomblet RocketExecution per
generated cluster target; the number of targets is at least 1 and at most the
configured bomblet count (CLUSTER_BOMBLET_COUNT = 5), reaching 5 only when the
placement phases find enough distinct valid targets. -/
theorem c1_split_one_bomblet_per_target (ex : RocketExec) (config : RocketConfig)
    (st : GameState) (r : Rand) (out : RocketExec × GameState × Rand) (ru : Unit)
    (hru : ex.rocket = some ru)
    (hok : splitClusterRocket ex config st r = Except.ok out) :
    out.2.1.pendingExecs = st.pendingExecs ++
      (generateClusterBlasts st ex.dst config CLUSTER_BOMBLET_COUNT r).1.map
        (mkBombletExec ex.playerId ru.tile) ∧
    1 ≤ (generateClusterBlasts st ex.dst config CLUSTER_BOMBLET_COUNT r).1.length ∧
    (generateClusterBlasts st ex.dst config CLUSTER_BOMBLET_COUNT r).1.length ≤
      CLUSTER_BOMBLET_COUNT := by
  refine ⟨splitClusterRocket_pending ex config st r out ru hru hok, ?_⟩
  exact generateClusterBlasts_length_bounds st ex.dst config CLUSTER_BOMBLET_COUNT r
    (by decide)

/-- The concrete outcome of splitting `exC` on the one-tile world. -/
def outSplit : RocketExec × GameState × Rand :=
  (splitClusterRocket exC (rocketConfig RocketUnitType.ClusterRocket) stOne
    oracle0).toOption.getD (exC, stOne, oracle0)

theorem outSplit_ok :
    splitClusterRocket exC (rocketConfig RocketUnitType.ClusterRocket) stOne oracle0 =
      Except.ok outSplit := by
  obtain ⟨o, ho⟩ := splitClusterRocket_isOk exC
    (rocketConfig RocketUnitType.ClusterRocket) stOne oracle0 ruC rfl
  unfold outSplit
  rw [ho]
  rfl

/-- C1 witness: the amended theorem applied to the concrete one-tile split. -/
theorem c1_witness :
    1 ≤ (generateClusterBlasts stOne 0 (rocketConfig RocketUnitType.ClusterRocket)
          CLUSTER_BOMBLET_COUNT oracle0).1.length ∧
    (generateClusterBlasts stOne 0 (rocketConfig RocketUnitType.ClusterRocket)
          CLUSTER_BOMBLET_COUNT oracle0).1.length ≤ CLUSTER_BOMBLET_COUNT :=
  (c1_split_one_bomblet_per_target exC (rocketConfig RocketUnitType.ClusterRocket)
    stOne oracle0 outSplit ruC rfl outSplit_ok).2

/-- C10: every secondary execution enqueued by `splitClusterRocket` is
constructed with `isClusterBomblet := true` (a cluster rocket with spawn checks
skipped), and the detonation of an execution whose `isClusterBomblet` flag is
set enqueues no further executions — so the splitting cascade of any cluster
rocket has depth exactly one. -/
theorem c10_split_depth_one (ex : RocketExec) (config : RocketConfig)
    (st : GameState) (r : Rand) (out out2 : RocketExec × GameState × Rand) :
    (splitClusterRocket ex config st r = Except.ok out →
      ∀ e ∈ out.2.1.pendingExecs, e ∈ st.pendingExecs ∨
        (e.options.isClusterBomblet = true ∧
         e.rocketType = RocketUnitType.ClusterRocket ∧
         e.options.skipSpawnChecks = true)) ∧
    (ex.options.isClusterBomblet = true → detonate ex st r = Except.ok out2 →
      out2.2.1.pendingExecs = st.pendingExecs) := by
  constructor
  · intro hok e he
    cases hr : ex.rocket with
    | none =>
      rw [splitClusterRocket, hr] at hok
      cases hok
    | some ru =>
      rw [splitClusterRocket_pending ex config st r out ru hr hok] at he
      rcases List.mem_append.mp he with hl | hrr
      · exact Or.inl hl
      · right
        obtain ⟨t, _, het⟩ := List.mem_map.mp hrr
        subst het
        exact ⟨rfl, rfl, rfl⟩
  · intro hb hok
    cases hr : ex.rocket with
    | none =>
      rw [detonate, hr] at hok
      cases hok
    | some ru =>
      simp only [detonate, hr] at hok
      rw [if_neg (by simp [hb])] at hok
      simp only [Except.ok.injEq] at hok
      subst hok
      simp only [recordBombLand_pending, deleteUnit_pending, mutateRocket_pending,
        redrawBuildings_pending, applyBlasts_pending]
      split <;> simp only [mutateRocket_pending]

/-- The concrete outcome of detonating the bomblet `exB` on the one-tile world. -/
theorem outB_ok : detonate exB stOne oracle0 = Except.ok outB := by rfl

/-- C10 witness: both parts of the depth-one theorem applied to the concrete
one-tile split and the concrete bomblet detonation. -/
theorem c10_witness :
    (∀ e ∈ outSplit.2.1.pendingExecs, e ∈ stOne.pendingExecs ∨
      (e.options.isClusterBomblet = true ∧
       e.rocketType = RocketUnitType.ClusterRocket ∧
       e.options.skipSpawnChecks = true)) ∧
    outB.2.1.pendingExecs = stOne.pendingExecs :=
  ⟨(c10_split_depth_one exC (rocketConfig RocketUnitType.ClusterRocket) stOne
      oracle0 outSplit outSplit).1 outSplit_ok,
   (c10_split_depth_one exB (rocketConfig RocketUnitType.ClusterRocket) stOne
      oracle0 outB outB).2 rfl outB_ok⟩

/-! ## Flight-path targetability (C7) -/

/-- C7: for every sampled tile of a rocket's precomputed flight path, the
trajectory records exactly the path's tiles, and a sample's targetable flag is
set if and only if the sample lies within the configured targetable range of
the destination tile or within that range of the original launch tile,
evaluated with squared Euclidean distance against the squared range. -/
theorem c7_trajectory_targetable (st : GameState) (srcTile target : TileRef)
    (path : List TileRef) :
    ((getTrajectory st (some srcTile) target path).map (fun tt => tt.tile) = path) ∧
    ∀ tt ∈ getTrajectory st (some srcTile) target path,
      (tt.targetable = true ↔
        (st.map.distSq tt.tile target < st.targetableRange ^ 2 ∨
         st.map.distSq srcTile tt.tile < st.targetableRange ^ 2)) := by
  constructor
  · unfold getTrajectory
    rw [List.map_map]
    exact List.map_id' path
  · intro tt htt
    unfold getTrajectory at htt
    obtain ⟨tile, hmem, heq⟩ := List.mem_map.mp htt
    subst heq
    dsimp only
    unfold isTargetable
    simp only [Bool.or_eq_true, decide_eq_true_eq]

/-! ## PseudoRandom determinism (C9) -/

/-- C9: two PseudoRandom instances constructed from the same seed and driven
with the identical call sequence produce identical output sequences.  In this
pure embedding the generator's record is its entire state — there is no global
state a draw could consult — so the output sequence is a function of the seed
and the calls alone. -/
theorem c9_pseudorandom_deterministic (seed1 seed2 : Nat) (calls : List RandCall)
    (h : seed1 = seed2) :
    runCalls (mkPseudoRandom seed1) calls = runCalls (mkPseudoRandom seed2) calls := by
  subst h
  rfl

/-- C9 witness: two instances seeded with 12345 and driven with the same
three-call sequence agree. -/
theorem c9_witness :
    runCalls (mkPseudoRandom 12345)
        [RandCall.int 0 10, RandCall.int (-5) 5, RandCall.float 0 1] =
      runCalls (mkPseudoRandom 12345)
        [RandCall.int 0 10, RandCall.int (-5) 5, RandCall.float 0 1] :=
  c9_pseudorandom_deterministic 12345 12345
    [RandCall.int 0 10, RandCall.int (-5) 5, RandCall.float 0 1] rfl

/-! ## Failure semantics of the spawn phase and of detonation (C3) -/

/-- C3: before the rocket exists, every spawn-precondition failure during
`tick` — no valid spawn tile, no carrier found, or carrier in cooldown — sets
the execution inactive and returns normally (the spawn branch never throws at
all); whereas calling `detonate` or `splitClusterRocket` when the rocket unit
was never constructed is the error "Rocket not initialized" rather than being
swallowed. -/
theorem c3_failure_semantics (ex : RocketExec) (st : GameState) (r : Rand)
    (h : ex.rocket = none) :
    (∃ out, tick ex st r = Except.ok out) ∧
    (determineSpawn ex st = none →
      tick ex st r = Except.ok ({ ex with active := false }, st, r)) ∧
    (∀ spawn, determineSpawn ex st = some spawn →
      ex.options.skipSpawnChecks = false → ex.carrier = none →
      findCarrier st ex.playerId spawn = none →
      tick ex st r =
        Except.ok ({ ex with src := some spawn, active := false }, st, r)) ∧
    (∀ spawn c, determineSpawn ex st = some spawn →
      ex.options.skipSpawnChecks = false → ex.carrier = none →
      findCarrier st ex.playerId spawn = some c → c.isInCooldown = true →
      tick ex st r = Except.ok
        ({ ex with src := some spawn, carrier := some c, active := false }, st, r)) ∧
    detonate ex st r = Except.error "Rocket not initialized" ∧
    (∀ config, splitClusterRocket ex config st r =
      Except.error "Rocket not initialized") := by
  refine ⟨?_, ?_, ?_, ?_, ?_, ?_⟩
  · simp only [tick, h]
    cases hds : determineSpawn ex st with
    | none => exact ⟨_, rfl⟩
    | some spawn =>
      dsimp only
      by_cases hskip : ex.options.skipSpawnChecks = true
      · rw [if_pos hskip]
        exact ⟨_, rfl⟩
      · rw [if_neg hskip]
        cases hcar : ex.carrier with
        | some c =>
          dsimp only
          cases hcd : c.isInCooldown with
          | true => rw [if_pos rfl]; exact ⟨_, rfl⟩
          | false => rw [if_neg (fun hcc => Bool.false_ne_true hcc)]; exact ⟨_, rfl⟩
        | none =>
          dsimp only
          cases hfc : findCarrier st ex.playerId spawn with
          | none => exact ⟨_, rfl⟩
          | some c =>
            dsimp only
            cases hcd : c.isInCooldown with
            | true => rw [if_pos rfl]; exact ⟨_, rfl⟩
            | false => rw [if_neg (fun hcc => Bool.false_ne_true hcc)]; exact ⟨_, rfl⟩
  · intro hds
    simp only [tick, h, hds]
  · intro spawn hds hskip hcar hfc
    simp only [tick, h, hds, hcar, hfc]
    rw [if_neg (by rw [hskip]; exact Bool.false_ne_true)]
  · intro spawn c hds hskip hcar hfc hcd
    simp only [tick, h, hds, hcar, hfc]
    rw [if_neg (by rw [hskip]; exact Bool.false_ne_true)]
    rw [if_pos hcd]
  · simp only [detonate, h]
  · intro config
    simp only [splitClusterRocket, h]

/-- A fresh execution with spawn checks skipped but no source tile: the
"missing spawn tile" failure. -/
def exW : RocketExec :=
  { rocketType := RocketUnitType.ClusterRocket, playerId := 0, dst := 0,
    options := { skipSpawnChecks := true } }

/-- C3 witness: the missing-spawn-tile failure deactivates without throwing,
and detonating the never-built rocket is the fatal error. -/
theorem c3_witness :
    (∃ out, tick exW stOne oracle0 = Except.ok out) ∧
    tick exW stOne oracle0 =
      Except.ok ({ exW with active := false }, stOne, oracle0) ∧
    detonate exW stOne oracle0 = Except.error "Rocket not initialized" := by
  have hth := c3_failure_semantics exW stOne oracle0 rfl
  exact ⟨hth.1, hth.2.1 rfl, hth.2.2.2.2.1⟩

/-! ## Carrier requirements of the launch (C4) -/

theorem findCarrier_spec (st : GameState) (pid : PlayerId) (spawn : TileRef)
    (c : Unit) (h : findCarrier st pid spawn = some c) :
    c ∈ st.units ∧ c.utype = UnitType.MissileShip ∧ c.active = true ∧
      c.tile = spawn ∧ c.ownerId = pid := by
  unfold findCarrier at h
  cases hl : (playerUnits st pid UnitType.MissileShip).filter
      (fun ship => ship.active && decide (ship.tile = spawn) &&
        decide (ship.ownerId = pid)) with
  | nil => rw [hl] at h; cases h
  | cons a t =>
    rw [hl] at h
    have hac : a = c := by
      have : some a = some c := h
      exact Option.some.inj this
    subst hac
    have hmem : a ∈ (playerUnits st pid UnitType.MissileShip).filter
        (fun ship => ship.active && decide (ship.tile = spawn) &&
          decide (ship.ownerId = pid)) := by
      rw [hl]; exact List.mem_cons_self a t
    have hf := List.mem_filter.mp hmem
    have hpu := List.mem_filter.mp (by
      have := hf.1
      unfold playerUnits at this
      exact this)
    have hpred := hf.2
    simp only [Bool.and_eq_true, decide_eq_true_eq] at hpred hpu
    exact ⟨hpu.1, hpu.2.2, hpred.1.1, hpred.1.2, hpred.2⟩

theorem buildRocket_rocket_isSome (ex : RocketExec) (spawn : TileRef)
    (st : GameState) (r : Rand) :
    (buildRocket ex spawn st r).1.rocket.isSome = true := by
  unfold buildRocket
  dsimp only
  split
  · split <;> rfl
  · rfl

theorem buildRocket_carrier_launch (ex : RocketExec) (spawn : TileRef)
    (st : GameState) (r : Rand) (c : Unit) (hc : c ∈ st.units)
    (hcarr : ex.carrier = some c) (hsl : ex.options.skipLaunchCooldown = false) :
    (buildRocket ex spawn st r).1.carrier =
      some (launchUnit st.missileShipCooldown c) ∧
    launchUnit st.missileShipCooldown c ∈ (buildRocket ex spawn st r).2.1.units := by
  have hbase : ∀ (l : List Unit), c ∈ l →
      launchUnit st.missileShipCooldown c ∈ l.map
        (fun u => if u.id = c.id then launchUnit st.missileShipCooldown u else u) := by
    intro l hcl
    have hm := List.mem_map_of_mem
      (fun u => if u.id = c.id then launchUnit st.missileShipCooldown u else u) hcl
    dsimp only at hm
    rw [if_pos rfl] at hm
    exact hm
  unfold buildRocket buildUnit updateUnit
  dsimp only
  rw [if_pos hsl, hcarr]
  dsimp only
  constructor
  · repeat' split
    all_goals rfl
  · repeat' split
    all_goals exact hbase _ (List.mem_append_left _ hc)

/-- C4: for every rocket execution whose spawn checks are not skipped, the
rocket is built only if an active missile ship owned by the launching player
is positioned exactly at the spawn tile and is not in cooldown; and when the
launch cooldown is not skipped, a cooldown timer is appended to that carrier's
cooldown queue via `launch()`. -/
theorem c4_carrier_gates_launch (ex : RocketExec) (st : GameState) (r : Rand)
    (ex' : RocketExec) (st' : GameState) (r' : Rand)
    (hrock : ex.rocket = none) (hcar : ex.carrier = none)
    (hskip : ex.options.skipSpawnChecks = false)
    (hok : tick ex st r = Except.ok (ex', st', r'))
    (hbuilt : ex'.rocket.isSome = true) :
    ∃ spawn c, determineSpawn ex st = some spawn ∧
      findCarrier st ex.playerId spawn = some c ∧
      c.utype = UnitType.MissileShip ∧ c.active = true ∧ c.tile = spawn ∧
      c.ownerId = ex.playerId ∧ c.isInCooldown = false ∧
      (ex.options.skipLaunchCooldown = false →
        ex'.carrier = some (launchUnit st.missileShipCooldown c) ∧
        launchUnit st.missileShipCooldown c ∈ st'.units) := by
  simp only [tick, hrock] at hok
  cases hds : determineSpawn ex st with
  | none =>
    rw [hds] at hok
    simp only [Except.ok.injEq, Prod.mk.injEq] at hok
    rw [← hok.1] at hbuilt
    simp [hrock] at hbuilt
  | some spawn =>
    rw [hds] at hok
    dsimp only at hok
    rw [if_neg (by rw [hskip]; exact Bool.false_ne_true)] at hok
    rw [hcar] at hok
    dsimp only at hok
    cases hfc : findCarrier st ex.playerId spawn with
    | none =>
      rw [hfc] at hok
      simp only [Except.ok.injEq, Prod.mk.injEq] at hok
      rw [← hok.1] at hbuilt
      simp [hrock] at hbuilt
    | some c =>
      rw [hfc] at hok
      dsimp only at hok
      cases hcd : c.isInCooldown with
      | true =>
        rw [if_pos hcd] at hok
        simp only [Except.ok.injEq, Prod.mk.injEq] at hok
        rw [← hok.1] at hbuilt
        simp [hrock] at hbuilt
      | false =>
        rw [if_neg (by rw [hcd]; exact Bool.false_ne_true)] at hok
        have heq := Except.ok.inj hok
        have h1 := congrArg Prod.fst heq
        have h2 := congrArg (fun t => t.2.1) heq
        dsimp only at h1 h2
        have spec := findCarrier_spec st ex.playerId spawn c hfc
        refine ⟨spawn, c, rfl, hfc, spec.2.1, spec.2.2.1, spec.2.2.2.1,
          spec.2.2.2.2, hcd, ?_⟩
        intro hsl
        have hlaunch := buildRocket_carrier_launch
          ({ ex with src := some spawn, rocket := none, carrier := some c })
          spawn st r c spec.1 rfl hsl
        rw [h1, h2] at hlaunch
        exact hlaunch

/-- A concrete missile ship of player 0 sitting on the only tile of `map1`. -/
def shipC : Unit := { id := 5, utype := UnitType.MissileShip, ownerId := 0, tile := 0 }

/-- A world holding the missile ship, where `canBuild` reports tile 0. -/
def stS : GameState :=
  { map := map1, ownerOf := fun _ => none, players := fun _ => {},
    units := [shipC], nextId := 6, missileShipCooldown := 75,
    canBuildAt := fun _ _ _ => some 0 }

/-- A fresh tactical-rocket execution with full spawn checks. -/
def exS : RocketExec :=
  { rocketType := RocketUnitType.TacticalRocket, playerId := 0, dst := 0 }

/-- The concrete outcome of the spawn tick of `exS` on `stS`. -/
def outS : RocketExec × GameState × Rand :=
  (tick exS stS oracle0).toOption.getD (exS, stS, oracle0)

/-- C4 witness: on the concrete world the launched rocket's carrier is the
missile ship at the spawn tile, out of cooldown, and its queue receives the
configured timer. -/
theorem c4_witness :
    ∃ spawn c, determineSpawn exS stS = some spawn ∧
      findCarrier stS exS.playerId spawn = some c ∧
      c.utype = UnitType.MissileShip ∧ c.active = true ∧ c.tile = spawn ∧
      c.ownerId = exS.playerId ∧ c.isInCooldown = false ∧
      (exS.options.skipLaunchCooldown = false →
        outS.1.carrier = some (launchUnit stS.missileShipCooldown c) ∧
        launchUnit stS.missileShipCooldown c ∈ outS.2.1.units) :=
  c4_carrier_gates_launch exS stS oracle0 outS.1 outS.2.1 outS.2.2 rfl rfl rfl
    (by rfl) (by rfl)

/-! ## The skipCost refund (C8) -/

theorem updateP_self (ps : PlayerId → PlayerState) (p : PlayerId)
    (f : PlayerState → PlayerState) : updateP ps p f p = f (ps p) := by
  unfold updateP
  rw [if_pos rfl]

theorem buildRocket_gold (ex : RocketExec) (spawn : TileRef) (st : GameState)
    (r : Rand) (hsc : ex.options.skipCost = true)
    (hcost : 0 ≤ st.buildCost ex.rocketType.toUnitType) :
    ((buildRocket ex spawn st r).2.1.players ex.playerId).gold =
      (st.players ex.playerId).gold := by
  unfold buildRocket buildUnit updateUnit
  dsimp only
  rw [if_pos hsc]
  repeat' split
  all_goals (try dsimp only)
  all_goals (try simp only [updateP_self] at *)
  all_goals omega

/-- C8: for every rocket execution constructed with skipCost whose spawn tick
builds the rocket, the tick refunds exactly the gold that `buildUnit`
deducted: the owning player's gold after the spawn equals their gold
immediately before it, so the refund path never makes the player's gold
negative. -/
theorem c8_skip_cost_refund (ex : RocketExec) (st : GameState) (r : Rand)
    (ex' : RocketExec) (st' : GameState) (r' : Rand)
    (hrock : ex.rocket = none) (hsc : ex.options.skipCost = true)
    (hcost : 0 ≤ st.buildCost ex.rocketType.toUnitType)
    (hok : tick ex st r = Except.ok (ex', st', r'))
    (hbuilt : ex'.rocket.isSome = true) :
    (st'.players ex.playerId).gold = (st.players ex.playerId).gold ∧
    (0 ≤ (st.players ex.playerId).gold → 0 ≤ (st'.players ex.playerId).gold) := by
  have hmain : (st'.players ex.playerId).gold = (st.players ex.playerId).gold := by
    simp only [tick, hrock] at hok
    cases hds : determineSpawn ex st with
    | none =>
      rw [hds] at hok
      simp only [Except.ok.injEq, Prod.mk.injEq] at hok
      rw [← hok.1] at hbuilt
      simp [hrock] at hbuilt
    | some spawn =>
      rw [hds] at hok
      dsimp only at hok
      by_cases hskip : ex.options.skipSpawnChecks = true
      · rw [if_pos hskip] at hok
        have heq := Except.ok.inj hok
        have h2 := congrArg (fun t => t.2.1) heq
        dsimp only at h2
        rw [← h2]
        exact buildRocket_gold ({ ex with src := some spawn }) spawn st r hsc hcost
      · rw [if_neg hskip] at hok
        cases hc : ex.carrier with
        | some c =>
          rw [hc] at hok
          dsimp only at hok
          cases hcd : c.isInCooldown with
          | true =>
            rw [if_pos hcd] at hok
            simp only [Except.ok.injEq, Prod.mk.injEq] at hok
            rw [← hok.1] at hbuilt
            simp [hrock] at hbuilt
          | false =>
            rw [if_neg (by rw [hcd]; exact Bool.false_ne_true)] at hok
            have heq := Except.ok.inj hok
            have h2 := congrArg (fun t => t.2.1) heq
            dsimp only at h2
            rw [← h2]
            exact buildRocket_gold ({ ex with src := some spawn, carrier := some c })
              spawn st r hsc hcost
        | none =>
          rw [hc] at hok
          dsimp only at hok
          cases hfc : findCarrier st ex.playerId spawn with
          | none =>
            rw [hfc] at hok
            simp only [Except.ok.injEq, Prod.mk.injEq] at hok
            rw [← hok.1] at hbuilt
            simp [hrock] at hbuilt
          | some c =>
            rw [hfc] at hok
            dsimp only at hok
            cases hcd : c.isInCooldown with
            | true =>
              rw [if_pos hcd] at hok
              simp only [Except.ok.injEq, Prod.mk.injEq] at hok
              rw [← hok.1] at hbuilt
              simp [hrock] at hbuilt
            | false =>
              rw [if_neg (by rw [hcd]; exact Bool.false_ne_true)] at hok
              have heq := Except.ok.inj hok
              have h2 := congrArg (fun t => t.2.1) heq
              dsimp only at h2
              rw [← h2]
              exact buildRocket_gold ({ ex with src := some spawn, carrier := some c })
                spawn st r hsc hcost
  exact ⟨hmain, fun h0 => by rw [hmain]; exact h0⟩

/-- A world charging 10 gold for every build, player 0 holding 100 gold. -/
def stG : GameState :=
  { map := map1, ownerOf := fun _ => none,
    players := fun _ => { gold := 100 }, buildCost := fun _ => 10 }

/-- A cluster bomblet (skipCost set) aimed at the only tile. -/
def exG : RocketExec := mkBombletExec 0 0 0

/-- The concrete outcome of the bomblet's spawn tick on `stG`. -/
def outG : RocketExec × GameState × Rand :=
  (tick exG stG oracle0).toOption.getD (exG, stG, oracle0)

/-- C8 witness: the bomblet's spawn tick on the concrete world leaves player
0's gold at exactly 100. -/
theorem c8_witness :
    (outG.2.1.players exG.playerId).gold = (stG.players exG.playerId).gold ∧
    (0 ≤ (stG.players exG.playerId).gold →
      0 ≤ (outG.2.1.players exG.playerId).gold) :=
  c8_skip_cost_refund exG stG oracle0 outG.1 outG.2.1 outG.2.2 rfl rfl
    (by decide) (by rfl) (by rfl)

end OpenFront
